import Mathlib

/-!
Shallow embedding of the room coordination core of the
open-collaboration-tools server: the RoomManager (room-manager.ts),
the connection gateway header handling of collaboration-server.ts,
and the claim shape predicates.  JavaScript Map state is modelled by
association lists, JS object identity of Room objects by a heap of
references (Nat) into an object store, and the event effects
(broadcasts, notifications, channel closes, onClose hooks) by
explicit logs in the manager state.
-/

/-- User identity as in types.ts and the spec: id, name, optional email. -/
structure User where
  id : String
  name : String
  email : Option String
deriving DecidableEq, Repr

/-- A connected participant: identity, user, host role.  The Channel is
owned 1:1 by the peer, so channel identity is tracked by the peer id in
the closed-channel log of the manager state. -/
structure Peer where
  id : String
  user : User
  host : Bool
deriving DecidableEq, Repr

/-- Modelled from the spec: the Room class lives in types.ts, which is not
part of the sources; the spec defines Room as an id, a host Peer and an
ordered sequence of guest Peers. -/
structure RoomData where
  id : String
  host : Peer
  guests : List Peer
deriving DecidableEq, Repr

/-- Modelled from the spec: closeRoom iterates room.peers over every
member of the room, the host included. -/
def RoomData.peers (r : RoomData) : List Peer :=
  r.host :: r.guests

/-- Modelled from the spec: the wire method names of the
open-collaboration-protocol Messages namespace, absent from the sources. -/
def methodRoomClosed : String := "room/closed"

/-- Modelled from the spec: method of the peer-joined broadcast. -/
def methodRoomJoined : String := "room/joined"

/-- Modelled from the spec: method of the peer-left broadcast. -/
def methodRoomLeft : String := "room/left"

/-- Modelled from the spec: method of the self-identity notification. -/
def methodPeerInfo : String := "peer/info"

/-- An effect recorded by the MessageRelay: a broadcast from an origin
peer or a notification to a target peer, with method and the wire-safe
peer projections as payload. -/
inductive Msg where
  | broadcast (origin : Peer) (method : String) (payload : List Peer)
  | notif (target : Peer) (method : String) (payload : List Peer)
deriving DecidableEq, Repr

/-- An onClose hook registered on a peer channel during join: the host
hook closes the room, the guest hook broadcasts a peer-left event. -/
inductive HookAction where
  | closeRoomH (roomId : String)
  | leftH (p : Peer)
deriving DecidableEq, Repr

/-- Association-list lookup, mirroring JS Map.get (the keys of a JS Map
are unique, so first-match lookup agrees with it). -/
def mapGet {α : Type} : List (String × α) → String → Option α
  | [], _ => none
  | (k, v) :: rest, key => if k = key then some v else mapGet rest key

/-- Association-list update, mirroring JS Map.set: replace the binding of
the key when present, otherwise append at the end (JS Map keys are
unique, so replacing every occurrence coincides with Map.set). -/
def mapSet {α : Type} : List (String × α) → String → α → List (String × α)
  | [], key, value => [(key, value)]
  | (k, v) :: rest, key, value =>
    if k = key then (key, value) :: mapSet rest key value
    else (k, v) :: mapSet rest key value

/-- Association-list removal, mirroring JS Map.delete (again JS Map keys
are unique, so removing every occurrence coincides with Map.delete). -/
def mapDelete {α : Type} : List (String × α) → String → List (String × α)
  | [], _ => []
  | (k, v) :: rest, key =>
    if k = key then mapDelete rest key else (k, v) :: mapDelete rest key

/-- The whole mutable state of a RoomManager process: the two registries
(storing references into the Room object store), the object store with
its allocation counter, the registered channel hooks, the log of closed
channels (by peer id), the log of relay effects, and the counter of the
secure id generator of the CredentialsManager. -/
structure ManagerState where
  rooms : List (String × Nat)
  peers : List (String × Nat)
  objs : Nat → RoomData
  nextRef : Nat
  hooks : List (String × HookAction)
  closed : List String
  sent : List Msg
  genCounter : Nat

def emptyRoom : RoomData :=
  { id := "", host := { id := "", user := { id := "", name := "", email := none }, host := false }, guests := [] }

def initialState : ManagerState :=
  { rooms := [], peers := [], objs := fun _ => emptyRoom, nextRef := 0,
    hooks := [], closed := [], sent := [], genCounter := 0 }

/-- Modelled from the spec: CredentialsManager.secureId is an external
contract producing unique unpredictable identifiers; the model issues a
string of n+1 repeated characters for counter n, which is injective. -/
def secureIdString (n : Nat) : String :=
  String.mk (List.replicate (n + 1) 'r')

/-- RoomClaim from room-manager.ts: room id, user, optional host flag. -/
structure RoomClaim where
  room : String
  user : User
  host : Option Bool
deriving DecidableEq, Repr

/-- Modelled from the spec: a signed token of the external
CredentialsManager whose decoded payload equals the given claim exactly. -/
structure Jwt where
  payload : RoomClaim
deriving DecidableEq, Repr

/-- Modelled from the spec: generateJwt signs a claim; the decoded
payload of the result equals the claim exactly. -/
def generateJwt (claim : RoomClaim) : Jwt := ⟨claim⟩

/-- Modelled from the spec: decoding a signed token recovers its payload. -/
def decodeJwt (j : Jwt) : RoomClaim := j.payload

/-- PreparedRoom from room-manager.ts. -/
structure PreparedRoom where
  id : String
  jwt : Jwt
deriving DecidableEq, Repr

/-- RoomManager.prepareRoom: draw a fresh id from the generator, build
the claim with the sanitized user copy and host set to true, sign it,
and return id and token; the registries are untouched. -/
def prepareRoom (s : ManagerState) (user : User) : PreparedRoom × ManagerState :=
  let id := secureIdString s.genCounter
  let claim : RoomClaim :=
    { room := id,
      user := { id := user.id, name := user.name, email := user.email },
      host := some true }
  ({ id := id, jwt := generateJwt claim },
   { s with genCounter := s.genCounter + 1 })

/-- RoomManager.join.  Host branch: allocate a new Room object, register
it in both registries, register the close-room hook, send the peer-info
notification.  Guest branch: look the room up, fail when absent,
register the peer, push it onto the guests of the shared Room object,
broadcast the joined event, register the left-broadcast hook, send the
peer-info notification. -/
def join (s : ManagerState) (peer : Peer) (roomId : String) :
    Except String Nat × ManagerState :=
  if peer.host then
    let ref := s.nextRef
    let room : RoomData := { id := roomId, host := peer, guests := [] }
    (Except.ok ref,
     { s with
        objs := fun r => if r = ref then room else s.objs r,
        nextRef := s.nextRef + 1,
        rooms := mapSet s.rooms roomId ref,
        peers := mapSet s.peers peer.id ref,
        hooks := s.hooks ++ [(peer.id, HookAction.closeRoomH roomId)],
        sent := s.sent ++ [Msg.notif peer methodPeerInfo [peer]] })
  else
    match mapGet s.rooms roomId with
    | none => (Except.error ("Could not find room to join from id: " ++ roomId), s)
    | some ref =>
      (Except.ok ref,
       { s with
          peers := mapSet s.peers peer.id ref,
          objs := fun r =>
            if r = ref then
              { s.objs ref with guests := (s.objs ref).guests ++ [peer] }
            else s.objs r,
          hooks := s.hooks ++ [(peer.id, HookAction.leftH peer)],
          sent := s.sent ++ [Msg.broadcast peer methodRoomJoined [peer],
                             Msg.notif peer methodPeerInfo [peer]] })

/-- The loop body of closeRoom over the members of the room: delete each
member from the peer registry and close its channel. -/
def removeMembers : List Peer → List (String × Nat) → List String →
    List (String × Nat) × List String
  | [], peersMap, closedLog => (peersMap, closedLog)
  | p :: rest, peersMap, closedLog =>
    removeMembers rest (mapDelete peersMap p.id) (closedLog ++ [p.id])

/-- RoomManager.closeRoom: when the room exists, broadcast the closed
event from the host, delete every member from the peer registry and
close its channel, then delete the room from the room registry; a
no-op on an unknown id. -/
def closeRoom (s : ManagerState) (id : String) : ManagerState :=
  match mapGet s.rooms id with
  | none => s
  | some ref =>
    let room := s.objs ref
    let rc := removeMembers room.peers s.peers s.closed
    { s with
       sent := s.sent ++ [Msg.broadcast room.host methodRoomClosed []],
       peers := rc.1,
       closed := rc.2,
       rooms := mapDelete s.rooms id }

/-- RoomManager.getRoomById: pure lookup in the room registry. -/
def getRoomById (s : ManagerState) (id : String) : Option Nat :=
  mapGet s.rooms id

/-- RoomManager.getRoomByPeerId: pure lookup in the peer registry. -/
def getRoomByPeerId (s : ManagerState) (id : String) : Option Nat :=
  mapGet s.peers id

/-- Firing a registered channel onClose hook: the host hook calls
closeRoom, the guest hook broadcasts the peer-left event. -/
def runHook (s : ManagerState) (h : HookAction) : ManagerState :=
  match h with
  | HookAction.closeRoomH roomId => closeRoom s roomId
  | HookAction.leftH p =>
    { s with sent := s.sent ++ [Msg.broadcast p methodRoomLeft [p]] }

/-- Untyped JSON-like runtime values, for the payloads seen by the claim
verification path and by the requestJoin response. -/
inductive JVal where
  | null
  | undef
  | bool (b : Bool)
  | num (n : Int)
  | str (s : String)
  | obj (fields : List (String × JVal))
  | arr (elems : List JVal)

/-- Field lookup in a list of JSON object fields; absent fields read as
undefined, as in JS. -/
def lookupJ : List (String × JVal) → String → JVal
  | [], _ => JVal.undef
  | (k, v) :: rest, key => if k = key then v else lookupJ rest key

/-- Property access on a runtime value; non-objects yield undefined. -/
def getField : JVal → String → JVal
  | JVal.obj fields, key => lookupJ fields key
  | _, _ => JVal.undef

/-- JS truthiness of a runtime value. -/
def truthy : JVal → Bool
  | JVal.null => false
  | JVal.undef => false
  | JVal.bool b => b
  | JVal.num n => !(n == 0)
  | JVal.str s => !(s == "")
  | JVal.obj _ => true
  | JVal.arr _ => true

/-- The JS nullish coalescing operator: take the left value unless it is
null or undefined. -/
def coalesce (v : JVal) (d : JVal) : JVal :=
  match v with
  | JVal.null => d
  | JVal.undef => d
  | x => x

/-- Modelled from the spec: isObject of open-collaboration-rpc, absent
from the sources; it narrows a runtime value to a record. -/
def isObject : JVal → Bool
  | JVal.obj _ => true
  | _ => false

def isString : JVal → Bool
  | JVal.str _ => true
  | _ => false

def isUndef : JVal → Bool
  | JVal.undef => true
  | _ => false

/-- Modelled from the spec: isUser of types.ts, absent from the sources;
the spec defines User as string id, string name and optional email. -/
def isUser (v : JVal) : Bool :=
  isObject v && isString (getField v "id") && isString (getField v "name")
    && (isUndef (getField v "email") || isString (getField v "email"))

/-- isRoomClaim from room-manager.ts: an object whose room is a string
and whose user satisfies isUser; the host field is not inspected. -/
def isRoomClaim (v : JVal) : Bool :=
  isObject v && isString (getField v "room") && isUser (getField v "user")

/-- The host flag a peer is constructed with in connectChannel:
JS truthiness of claim.host with nullish default false. -/
def peerHost (claim : JVal) : Bool :=
  truthy (coalesce (getField claim "host") (JVal.bool false))

/-- The body of the try block of RoomManager.requestJoin: re-raise a
relay failure, mint and sign a guest claim on a truthy response, throw
the rejected error on a falsy response. -/
def requestJoinTryBody (room : RoomData) (user : User)
    (relayResult : Except String JVal) : Except String (Jwt × JVal) :=
  match relayResult with
  | Except.error e => Except.error e
  | Except.ok response =>
    if truthy response then
      Except.ok (generateJwt { room := room.id, user := user, host := none }, response)
    else
      Except.error "Join request has been rejected"

/-- RoomManager.requestJoin: the try block wrapped in the catch-all that
rethrows every failure as the timed-out error. -/
def requestJoin (room : RoomData) (user : User)
    (relayResult : Except String JVal) : Except String (Jwt × JVal) :=
  match requestJoinTryBody room user relayResult with
  | Except.ok v => Except.ok v
  | Except.error _ => Except.error "Join request has timed out"

/-- JS falsiness of an optional header string: absent or empty. -/
def strFalsy : Option String → Bool
  | none => true
  | some s => s == ""

def splitComma (s : String) : List String := s.splitOn ","

/-- The peer construction arguments of the x-oct gateway. -/
structure PeerSetupV1 where
  user : JVal
  host : Bool
  client : String
  publicKey : String
  supportedCompression : List String

/-- connectChannel of the x-oct collaboration-server: the jwt and the
encryption public key headers are required, the compression list
defaults to none and the client identifier to unknown; vf stands for
the external CredentialsManager.verifyJwt with the isRoomClaim check. -/
def connectChannelV1 (headers : List (String × String))
    (vf : String → Except String JVal) : Except String PeerSetupV1 :=
  let jwtOpt := mapGet headers "x-oct-jwt"
  if strFalsy jwtOpt then Except.error "No JWT auth token set"
  else
    let pkOpt := mapGet headers "x-oct-public-key"
    if strFalsy pkOpt then Except.error "No encryption key set"
    else
      let compression0 := (mapGet headers "x-oct-compression").map splitComma
      let compression :=
        match compression0 with
        | none => ["none"]
        | some l => if l.length = 0 then ["none"] else l
      let client := (mapGet headers "x-oct-client").getD "unknown"
      match vf (jwtOpt.getD "") with
      | Except.error e => Except.error e
      | Except.ok claim =>
        Except.ok { user := getField claim "user", host := peerHost claim,
                    client := client, publicKey := pkOpt.getD "",
                    supportedCompression := compression }

inductive MessageEncoding where
  | json
deriving DecidableEq, Repr

/-- EncodingProvider.getEncoding: json is the only supported encoding. -/
def getEncoding (encoding : String) : Except String MessageEncoding :=
  match encoding with
  | "json" => Except.ok MessageEncoding.json
  | other => Except.error ("Unsupported encoding: " ++ other)

/-- The peer construction arguments of the x-jwt gateway. -/
structure PeerSetupV2 where
  user : JVal
  host : Bool
  encoding : MessageEncoding

/-- connectChannel of the x-jwt collaboration-server: only the jwt
header is required; the encoding selector defaults to json. -/
def connectChannelV2 (headers : List (String × String))
    (vf : String → Except String JVal) : Except String PeerSetupV2 :=
  let jwtOpt := mapGet headers "x-jwt"
  if strFalsy jwtOpt then Except.error "No JWT auth token set"
  else
    let encOpt := mapGet headers "x-encoding"
    let encStr := if strFalsy encOpt then "json" else encOpt.getD ""
    match getEncoding encStr with
    | Except.error e => Except.error e
    | Except.ok me =>
      match vf (jwtOpt.getD "") with
      | Except.error e => Except.error e
      | Except.ok claim =>
        Except.ok { user := getField claim "user", host := peerHost claim,
                    encoding := me }

/-! ### Association map lemmas -/

theorem mapGet_mapSet_self {α : Type} (m : List (String × α)) (k : String) (v : α) :
    mapGet (mapSet m k v) k = some v := by
  induction m with
  | nil => simp [mapSet, mapGet]
  | cons hd tl ih =>
    obtain ⟨k0, v0⟩ := hd
    by_cases h : k0 = k
    · simp [mapSet, mapGet, h]
    · simp [mapSet, mapGet, h, ih]

theorem mapGet_mapSet_other {α : Type} (m : List (String × α)) (k k' : String) (v : α)
    (h : k' ≠ k) : mapGet (mapSet m k v) k' = mapGet m k' := by
  induction m with
  | nil => simp [mapSet, mapGet, Ne.symm h]
  | cons hd tl ih =>
    obtain ⟨k0, v0⟩ := hd
    by_cases h0 : k0 = k
    · simp [mapSet, mapGet, h0, Ne.symm h, ih]
    · by_cases h1 : k0 = k'
      · simp [mapSet, mapGet, h0, h1, h]
      · simp [mapSet, mapGet, h0, h1, ih]

theorem mapGet_mapDelete_self {α : Type} (m : List (String × α)) (k : String) :
    mapGet (mapDelete m k) k = none := by
  induction m with
  | nil => simp [mapDelete, mapGet]
  | cons hd tl ih =>
    obtain ⟨k0, v0⟩ := hd
    by_cases h : k0 = k
    · simp [mapDelete, h, ih]
    · simp [mapDelete, mapGet, h, ih]

theorem mapGet_mapDelete_other {α : Type} (m : List (String × α)) (k k' : String)
    (h : k' ≠ k) : mapGet (mapDelete m k) k' = mapGet m k' := by
  induction m with
  | nil => simp [mapDelete]
  | cons hd tl ih =>
    obtain ⟨k0, v0⟩ := hd
    by_cases h0 : k0 = k
    · simp [mapDelete, mapGet, h0, Ne.symm h, ih]
    · by_cases h1 : k0 = k'
      · simp [mapDelete, mapGet, h0, h1, h]
      · simp [mapDelete, mapGet, h0, h1, ih]

theorem mem_mapSet {α : Type} {m : List (String × α)} {k : String} {v : α}
    {e : String × α} (he : e ∈ mapSet m k v) :
    e = (k, v) ∨ (e ∈ m ∧ e.1 ≠ k) := by
  induction m with
  | nil =>
    simp only [mapSet, List.mem_singleton] at he
    exact Or.inl he
  | cons hd tl ih =>
    obtain ⟨k0, v0⟩ := hd
    simp only [mapSet] at he
    by_cases h : k0 = k
    · rw [if_pos h] at he
      rcases List.mem_cons.mp he with h1 | h1
      · exact Or.inl h1
      · rcases ih h1 with h2 | h2
        · exact Or.inl h2
        · exact Or.inr ⟨List.mem_cons_of_mem _ h2.1, h2.2⟩
    · rw [if_neg h] at he
      rcases List.mem_cons.mp he with h1 | h1
      · rw [h1]
        exact Or.inr ⟨List.mem_cons_self _ _, h⟩
      · rcases ih h1 with h2 | h2
        · exact Or.inl h2
        · exact Or.inr ⟨List.mem_cons_of_mem _ h2.1, h2.2⟩

theorem mem_mapDelete {α : Type} {m : List (String × α)} {k : String}
    {e : String × α} (he : e ∈ mapDelete m k) : e ∈ m ∧ e.1 ≠ k := by
  induction m with
  | nil => simp [mapDelete] at he
  | cons hd tl ih =>
    obtain ⟨k0, v0⟩ := hd
    simp only [mapDelete] at he
    by_cases h : k0 = k
    · rw [if_pos h] at he
      exact ⟨List.mem_cons_of_mem _ (ih he).1, (ih he).2⟩
    · rw [if_neg h] at he
      rcases List.mem_cons.mp he with h1 | h1
      · rw [h1]
        exact ⟨List.mem_cons_self _ _, h⟩
      · exact ⟨List.mem_cons_of_mem _ (ih h1).1, (ih h1).2⟩

theorem mapGet_some_mem {α : Type} {m : List (String × α)} {k : String} {v : α}
    (h : mapGet m k = some v) : (k, v) ∈ m := by
  induction m with
  | nil => simp [mapGet] at h
  | cons hd tl ih =>
    obtain ⟨k0, v0⟩ := hd
    simp only [mapGet] at h
    by_cases h0 : k0 = k
    · rw [if_pos h0] at h
      have hv : v0 = v := Option.some.inj h
      rw [← h0, ← hv]
      exact List.mem_cons_self _ _
    · rw [if_neg h0] at h
      exact List.mem_cons_of_mem _ (ih h)

theorem mapGet_mapDelete_none {α : Type} (m : List (String × α)) (dk k : String)
    (h : mapGet m k = none) : mapGet (mapDelete m dk) k = none := by
  by_cases hk : k = dk
  · subst hk
    exact mapGet_mapDelete_self m k
  · rw [mapGet_mapDelete_other m dk k hk]
    exact h

/-! ### removeMembers lemmas -/

theorem removeMembers_get_none (ps : List Peer) (m : List (String × Nat))
    (c : List String) (k : String) (h : mapGet m k = none) :
    mapGet (removeMembers ps m c).1 k = none := by
  induction ps generalizing m c with
  | nil => exact h
  | cons p rest ih =>
    exact ih (mapDelete m p.id) (c ++ [p.id]) (mapGet_mapDelete_none m p.id k h)

theorem removeMembers_get_mem (ps : List Peer) (m : List (String × Nat))
    (c : List String) (q : Peer) (hq : q ∈ ps) :
    mapGet (removeMembers ps m c).1 q.id = none := by
  induction ps generalizing m c with
  | nil => simp at hq
  | cons p rest ih =>
    rcases List.mem_cons.mp hq with h | h
    · rw [h]
      exact removeMembers_get_none rest (mapDelete m p.id) (c ++ [p.id]) p.id
        (mapGet_mapDelete_self m p.id)
    · exact ih (mapDelete m p.id) (c ++ [p.id]) h

theorem removeMembers_get_notin (ps : List Peer) (m : List (String × Nat))
    (c : List String) (k : String) (h : ∀ q ∈ ps, q.id ≠ k) :
    mapGet (removeMembers ps m c).1 k = mapGet m k := by
  induction ps generalizing m c with
  | nil => rfl
  | cons p rest ih =>
    have h1 : mapGet (mapDelete m p.id) k = mapGet m k :=
      mapGet_mapDelete_other m p.id k (Ne.symm (h p (List.mem_cons_self _ _)))
    calc mapGet (removeMembers (p :: rest) m c).1 k
        = mapGet (removeMembers rest (mapDelete m p.id) (c ++ [p.id])).1 k := rfl
      _ = mapGet (mapDelete m p.id) k :=
          ih (mapDelete m p.id) (c ++ [p.id]) (fun q hq => h q (List.mem_cons_of_mem _ hq))
      _ = mapGet m k := h1

theorem removeMembers_closed_mono (ps : List Peer) (m : List (String × Nat))
    (c : List String) (x : String) (hx : x ∈ c) :
    x ∈ (removeMembers ps m c).2 := by
  induction ps generalizing m c with
  | nil => exact hx
  | cons p rest ih =>
    exact ih (mapDelete m p.id) (c ++ [p.id]) (List.mem_append_left _ hx)

theorem removeMembers_closed_mem (ps : List Peer) (m : List (String × Nat))
    (c : List String) (q : Peer) (hq : q ∈ ps) :
    q.id ∈ (removeMembers ps m c).2 := by
  induction ps generalizing m c with
  | nil => simp at hq
  | cons p rest ih =>
    rcases List.mem_cons.mp hq with h | h
    · rw [h]
      exact removeMembers_closed_mono rest (mapDelete m p.id) (c ++ [p.id]) p.id
        (List.mem_append_right _ (List.mem_singleton.mpr rfl))
    · exact ih (mapDelete m p.id) (c ++ [p.id]) h

/-! ### Sample values for witnesses and counterexamples -/

def annUser : User := { id := "u1", name := "Ann", email := some "a@x.com" }

def benUser : User := { id := "u2", name := "Ben", email := none }

def hostPeerP1 : Peer := { id := "p1", user := annUser, host := true }

def guestPeerP2 : Peer := { id := "p2", user := benUser, host := false }

def sampleRoom : RoomData := { id := "R1", host := hostPeerP1, guests := [] }

def twoJoinState : ManagerState :=
  (join (join initialState hostPeerP1 "R1").2 guestPeerP2 "R1").2

/-- Claim C2 (code bug in requestJoin): when the relay resolves within
the deadline with a falsy or absent host response, the source throws the
rejected error inside the try block, but the catch-all rewraps every
failure, so the caller observes the timed-out error instead of the
rejected one; the try body alone does produce the rejected error. -/
theorem c2_falsy_reply_reports_timeout :
    requestJoin sampleRoom annUser (Except.ok JVal.undef) =
      Except.error "Join request has timed out" ∧
    requestJoin sampleRoom annUser (Except.ok (JVal.bool false)) =
      Except.error "Join request has timed out" ∧
    requestJoinTryBody sampleRoom annUser (Except.ok JVal.undef) =
      Except.error "Join request has been rejected" :=
  ⟨rfl, rfl, rfl⟩

/-- Claim C4: a guest join against an unknown room id fails with the
room-not-found error and returns the state fully unchanged, so both
registries are exactly as before. -/
theorem c4_guest_join_unknown_room (s : ManagerState) (p : Peer) (roomId : String)
    (hhost : p.host = false) (habs : mapGet s.rooms roomId = none) :
    join s p roomId =
      (Except.error ("Could not find room to join from id: " ++ roomId), s) := by
  simp [join, hhost, habs]

/-- Witness for C4 at a concrete guest peer and empty registry. -/
theorem c4_guest_join_unknown_room_witness :
    join initialState guestPeerP2 "R1" =
      (Except.error ("Could not find room to join from id: " ++ "R1"), initialState) :=
  c4_guest_join_unknown_room initialState guestPeerP2 "R1" rfl rfl

/-- Claim C5: prepareRoom returns the generator's next fresh id together
with a token whose decoded payload is exactly the claim of that id, the
sanitized user and host true; no Room object is allocated and no
registry entry is added; distinct generator draws produce distinct ids. -/
theorem c5_prepareRoom_claim (s : ManagerState) (u : User) :
    (prepareRoom s u).1.id = secureIdString s.genCounter ∧
    decodeJwt (prepareRoom s u).1.jwt =
      { room := (prepareRoom s u).1.id,
        user := { id := u.id, name := u.name, email := u.email },
        host := some true } ∧
    (prepareRoom s u).2.rooms = s.rooms ∧
    (prepareRoom s u).2.peers = s.peers ∧
    (prepareRoom s u).2.objs = s.objs ∧
    (prepareRoom s u).2.nextRef = s.nextRef ∧
    (prepareRoom s u).2.genCounter = s.genCounter + 1 ∧
    (∀ m n : Nat, m ≠ n → secureIdString m ≠ secureIdString n) := by
  refine ⟨rfl, rfl, rfl, rfl, rfl, rfl, rfl, ?_⟩
  intro m n hmn heq
  apply hmn
  have h2 : List.replicate (m + 1) 'r' = List.replicate (n + 1) 'r' := by
    injection heq
  have h3 := congrArg List.length h2
  simp only [List.length_replicate] at h3
  omega

/-- Witness for C5 at a concrete user and the initial state. -/
theorem c5_prepareRoom_claim_witness :
    (prepareRoom initialState annUser).1.id = secureIdString 0 ∧
    decodeJwt (prepareRoom initialState annUser).1.jwt =
      { room := (prepareRoom initialState annUser).1.id,
        user := { id := "u1", name := "Ann", email := some "a@x.com" },
        host := some true } ∧
    secureIdString 0 ≠ secureIdString 1 := by
  have h := c5_prepareRoom_claim initialState annUser
  exact ⟨h.1, h.2.1, h.2.2.2.2.2.2.2 0 1 (by decide)⟩

/-- Claim C3: after closeRoom on a registered room id, the id is gone
from the room registry and every former member of that room (host and
guests alike) is gone from the peer registry and has had its channel
closed. -/
theorem c3_closeRoom_postcondition (s : ManagerState) (id : String) (ref : Nat)
    (h : mapGet s.rooms id = some ref) :
    mapGet (closeRoom s id).rooms id = none ∧
    (∀ p ∈ (s.objs ref).peers,
      mapGet (closeRoom s id).peers p.id = none ∧
      p.id ∈ (closeRoom s id).closed) := by
  constructor
  · simp [closeRoom, h, mapGet_mapDelete_self]
  · intro p hp
    constructor
    · simp only [closeRoom, h]
      exact removeMembers_get_mem _ _ _ p hp
    · simp only [closeRoom, h]
      exact removeMembers_closed_mem _ _ _ p hp

/-- Witness for C3 on a concrete room with one host and one guest. -/
theorem c3_closeRoom_postcondition_witness :
    mapGet (closeRoom twoJoinState "R1").rooms "R1" = none ∧
    mapGet (closeRoom twoJoinState "R1").peers guestPeerP2.id = none ∧
    guestPeerP2.id ∈ (closeRoom twoJoinState "R1").closed ∧
    mapGet (closeRoom twoJoinState "R1").peers hostPeerP1.id = none ∧
    hostPeerP1.id ∈ (closeRoom twoJoinState "R1").closed := by
  have h := c3_closeRoom_postcondition twoJoinState "R1" 0 (by decide)
  have hg := h.2 guestPeerP2 (by decide)
  have hh := h.2 hostPeerP1 (by decide)
  exact ⟨h.1, hg.1, hg.2, hh.1, hh.2⟩

/-- Claim C6: after a host joins a room id, getRoomById finds the new
Room holding that id, the host and no guests; after a guest then joins
the same id, that very Room object holds exactly that guest, and both
peer-id lookups yield the same Room reference. -/
theorem c6_join_and_lookup (s : ManagerState) (P1 P2 : Peer) (R1 : String)
    (h1 : P1.host = true) (h2 : P2.host = false) :
    getRoomById (join s P1 R1).2 R1 = some s.nextRef ∧
    (join s P1 R1).2.objs s.nextRef = { id := R1, host := P1, guests := [] } ∧
    getRoomById (join (join s P1 R1).2 P2 R1).2 R1 = some s.nextRef ∧
    ((join (join s P1 R1).2 P2 R1).2.objs s.nextRef).guests = [P2] ∧
    getRoomByPeerId (join (join s P1 R1).2 P2 R1).2 P1.id = some s.nextRef ∧
    getRoomByPeerId (join (join s P1 R1).2 P2 R1).2 P2.id = some s.nextRef := by
  have hm : mapGet (mapSet s.rooms R1 s.nextRef) R1 = some s.nextRef :=
    mapGet_mapSet_self _ _ _
  refine ⟨?_, ?_, ?_, ?_, ?_, ?_⟩
  · simpa [join, h1, getRoomById] using hm
  · simp [join, h1]
  · simp [join, h1, h2, getRoomById, hm]
  · simp [join, h1, h2, hm]
  · by_cases hid : P1.id = P2.id
    · simp [join, h1, h2, getRoomByPeerId, hm, hid, mapGet_mapSet_self]
    · simp [join, h1, h2, getRoomByPeerId, hm, mapGet_mapSet_self,
        mapGet_mapSet_other _ _ _ _ hid]
  · simp [join, h1, h2, getRoomByPeerId, hm, mapGet_mapSet_self]

/-- Witness for C6 at concrete host and guest peers. -/
theorem c6_join_and_lookup_witness :
    getRoomById (join initialState hostPeerP1 "R1").2 "R1" = some 0 ∧
    (join initialState hostPeerP1 "R1").2.objs 0 =
      { id := "R1", host := hostPeerP1, guests := [] } ∧
    getRoomById twoJoinState "R1" = some 0 ∧
    (twoJoinState.objs 0).guests = [guestPeerP2] ∧
    getRoomByPeerId twoJoinState hostPeerP1.id = some 0 ∧
    getRoomByPeerId twoJoinState guestPeerP2.id = some 0 :=
  c6_join_and_lookup initialState hostPeerP1 guestPeerP2 "R1" rfl rfl

/-- Claim C7: firing the channel-close hook registered for a guest peer
only appends the peer-left broadcast to the relay log; the registries,
the room objects, the closed-channel log and the hook table are
untouched, so the guest stays registered and stays in the guests list. -/
theorem c7_guest_hook_frame (s : ManagerState) (p : Peer) (ref : Nat)
    (hreg : mapGet s.peers p.id = some ref)
    (hhook : (p.id, HookAction.leftH p) ∈ s.hooks)
    (hguest : p ∈ (s.objs ref).guests) :
    (runHook s (HookAction.leftH p)).rooms = s.rooms ∧
    (runHook s (HookAction.leftH p)).peers = s.peers ∧
    (runHook s (HookAction.leftH p)).objs = s.objs ∧
    (runHook s (HookAction.leftH p)).closed = s.closed ∧
    (runHook s (HookAction.leftH p)).hooks = s.hooks ∧
    mapGet (runHook s (HookAction.leftH p)).peers p.id = some ref ∧
    p ∈ ((runHook s (HookAction.leftH p)).objs ref).guests ∧
    (runHook s (HookAction.leftH p)).sent =
      s.sent ++ [Msg.broadcast p methodRoomLeft [p]] :=
  ⟨rfl, rfl, rfl, rfl, rfl, hreg, hguest, rfl⟩

/-- Witness for C7 on the concrete state where a guest has joined. -/
theorem c7_guest_hook_frame_witness :
    (runHook twoJoinState (HookAction.leftH guestPeerP2)).rooms = twoJoinState.rooms ∧
    (runHook twoJoinState (HookAction.leftH guestPeerP2)).peers = twoJoinState.peers ∧
    (runHook twoJoinState (HookAction.leftH guestPeerP2)).objs = twoJoinState.objs ∧
    (runHook twoJoinState (HookAction.leftH guestPeerP2)).closed = twoJoinState.closed ∧
    (runHook twoJoinState (HookAction.leftH guestPeerP2)).hooks = twoJoinState.hooks ∧
    mapGet (runHook twoJoinState (HookAction.leftH guestPeerP2)).peers guestPeerP2.id
      = some 0 ∧
    guestPeerP2 ∈ ((runHook twoJoinState (HookAction.leftH guestPeerP2)).objs 0).guests ∧
    (runHook twoJoinState (HookAction.leftH guestPeerP2)).sent =
      twoJoinState.sent ++ [Msg.broadcast guestPeerP2 methodRoomLeft [guestPeerP2]] :=
  c7_guest_hook_frame twoJoinState guestPeerP2 0 (by decide) (by decide) (by decide)

/-- Claim C10: a host join on a room id that is already registered
silently replaces the registry entry with the newly allocated Room; the
replaced Room object is not closed (no channel is closed, no closed
broadcast is sent, only the peer-info notification) and every other
peer keeps its old mapping, so the replaced room's members still map to
the replaced Room object. -/
theorem c10_host_join_overwrites (s : ManagerState) (p : Peer) (roomId : String)
    (oldRef : Nat) (hhost : p.host = true)
    (hold : mapGet s.rooms roomId = some oldRef) (hne : oldRef ≠ s.nextRef) :
    mapGet (join s p roomId).2.rooms roomId = some s.nextRef ∧
    (join s p roomId).2.objs oldRef = s.objs oldRef ∧
    (join s p roomId).2.closed = s.closed ∧
    (∀ k, k ≠ p.id → mapGet (join s p roomId).2.peers k = mapGet s.peers k) ∧
    (join s p roomId).2.sent = s.sent ++ [Msg.notif p methodPeerInfo [p]] := by
  refine ⟨?_, ?_, ?_, ?_, ?_⟩
  · simp [join, hhost, mapGet_mapSet_self]
  · simp [join, hhost, hne]
  · simp [join, hhost]
  · intro k hk
    simp [join, hhost, mapGet_mapSet_other _ _ _ _ hk]
  · simp [join, hhost]

/-- Witness for C10: a second host rejoins the already-registered id. -/
theorem c10_host_join_overwrites_witness :
    mapGet (join twoJoinState hostPeerP1 "R1").2.rooms "R1" = some 1 ∧
    (join twoJoinState hostPeerP1 "R1").2.objs 0 = twoJoinState.objs 0 ∧
    (join twoJoinState hostPeerP1 "R1").2.closed = twoJoinState.closed ∧
    mapGet (join twoJoinState hostPeerP1 "R1").2.peers guestPeerP2.id =
      mapGet twoJoinState.peers guestPeerP2.id ∧
    (join twoJoinState hostPeerP1 "R1").2.sent =
      twoJoinState.sent ++ [Msg.notif hostPeerP1 methodPeerInfo [hostPeerP1]] := by
  have h := c10_host_join_overwrites twoJoinState hostPeerP1 "R1" 0 rfl
    (by decide) (by decide)
  exact ⟨h.1, h.2.1, h.2.2.1, h.2.2.2.1 guestPeerP2.id (by decide), h.2.2.2.2⟩

/-! ### Reachability and the registry consistency invariant (C1) -/

/-- The mutual-consistency property of the two registries: every Peer
that is the host of, or among the guests of, a Room stored in the room
registry is mapped to that same Room object in the peer registry. -/
def RegistryConsistent (s : ManagerState) : Prop :=
  ∀ e ∈ s.rooms, ∀ p ∈ (s.objs e.2).peers, mapGet s.peers p.id = some e.2

instance decRegistryConsistent (s : ManagerState) : Decidable (RegistryConsistent s) :=
  inferInstanceAs
    (Decidable (∀ e ∈ s.rooms, ∀ p ∈ (s.objs e.2).peers, mapGet s.peers p.id = some e.2))

/-- One RoomManager call as the claim words it: prepareRoom, join where
every host join presents a room id that is not currently registered (the
consequence of the id being freshly generator-issued), or closeRoom. -/
inductive Step : ManagerState → ManagerState → Prop where
  | prepare (s : ManagerState) (u : User) : Step s (prepareRoom s u).2
  | joinCall (s : ManagerState) (p : Peer) (roomId : String)
      (hfresh : p.host = true → mapGet s.rooms roomId = none) :
      Step s (join s p roomId).2
  | close (s : ManagerState) (id : String) : Step s (closeRoom s id)

/-- States reachable from the empty manager by the calls of the claim. -/
def Reachable (s : ManagerState) : Prop :=
  Relation.ReflTransGen Step initialState s

/-- The amended call relation: additionally every join call presents a
peer whose id is not currently registered, reflecting that a Peer is
freshly constructed per connection. -/
inductive StepFresh : ManagerState → ManagerState → Prop where
  | prepare (s : ManagerState) (u : User) : StepFresh s (prepareRoom s u).2
  | joinCall (s : ManagerState) (p : Peer) (roomId : String)
      (hfresh : p.host = true → mapGet s.rooms roomId = none)
      (hpeer : mapGet s.peers p.id = none) :
      StepFresh s (join s p roomId).2
  | close (s : ManagerState) (id : String) : StepFresh s (closeRoom s id)

def ReachableFresh (s : ManagerState) : Prop :=
  Relation.ReflTransGen StepFresh initialState s

/-- The inductive invariant: registry consistency, plus the auxiliary
facts that distinct registered room ids hold distinct Room references
and that every registered reference has been allocated. -/
def GoodState (s : ManagerState) : Prop :=
  RegistryConsistent s ∧
  (∀ e1 ∈ s.rooms, ∀ e2 ∈ s.rooms, e1.1 ≠ e2.1 → e1.2 ≠ e2.2) ∧
  (∀ e ∈ s.rooms, e.2 < s.nextRef)

theorem goodState_initial : GoodState initialState := by
  refine ⟨?_, ?_, ?_⟩ <;> intro e he <;> simp [initialState] at he

theorem stepFresh_goodState {s t : ManagerState} (hg : GoodState s)
    (st : StepFresh s t) : GoodState t := by
  obtain ⟨h1, h2, h3⟩ := hg
  cases st with
  | prepare u =>
    exact ⟨h1, h2, h3⟩
  | joinCall p roomId hfresh hpeer =>
    by_cases hp : p.host = true
    · have hrooms : (join s p roomId).2.rooms = mapSet s.rooms roomId s.nextRef := by
        simp [join, hp]
      have hpeers : (join s p roomId).2.peers = mapSet s.peers p.id s.nextRef := by
        simp [join, hp]
      have hnext : (join s p roomId).2.nextRef = s.nextRef + 1 := by
        simp [join, hp]
      have hobjs : (join s p roomId).2.objs =
          fun r => if r = s.nextRef then { id := roomId, host := p, guests := [] }
                   else s.objs r := by
        simp [join, hp]
      refine ⟨?_, ?_, ?_⟩
      · intro e he q hq
        rw [hrooms] at he
        rw [hpeers]
        rw [hobjs] at hq
        rcases mem_mapSet he with hnew | ⟨holde, hkey⟩
        · rw [hnew] at hq ⊢
          simp [RoomData.peers] at hq
          rw [hq]
          exact mapGet_mapSet_self _ _ _
        · have hne2 : e.2 ≠ s.nextRef := Nat.ne_of_lt (h3 e holde)
          simp only [hne2, if_false] at hq
          have hbase := h1 e holde q hq
          have hqid : q.id ≠ p.id := by
            intro hqp
            rw [hqp, hpeer] at hbase
            exact Option.noConfusion hbase
          rw [mapGet_mapSet_other _ _ _ _ hqid]
          exact hbase
      · intro e1 he1 e2 he2 hne
        rw [hrooms] at he1 he2
        rcases mem_mapSet he1 with h1a | ⟨h1a, h1k⟩ <;>
          rcases mem_mapSet he2 with h2a | ⟨h2a, h2k⟩
        · rw [h1a, h2a] at hne
          exact absurd rfl hne
        · rw [h1a]
          exact (Nat.ne_of_lt (h3 e2 h2a)).symm
        · rw [h2a]
          exact Nat.ne_of_lt (h3 e1 h1a)
        · exact h2 e1 h1a e2 h2a hne
      · intro e he
        rw [hrooms] at he
        rw [hnext]
        rcases mem_mapSet he with hnew | ⟨holde, hk⟩
        · rw [hnew]
          exact Nat.lt_succ_self _
        · exact Nat.lt_succ_of_lt (h3 e holde)
    · have hp2 : p.host = false := by
        cases hb : p.host
        · rfl
        · exact absurd hb hp
      cases hr : mapGet s.rooms roomId with
      | none =>
        have heq : (join s p roomId).2 = s := by simp [join, hp2, hr]
        rw [heq]
        exact ⟨h1, h2, h3⟩
      | some ref =>
        have hrooms : (join s p roomId).2.rooms = s.rooms := by
          simp [join, hp2, hr]
        have hpeers : (join s p roomId).2.peers = mapSet s.peers p.id ref := by
          simp [join, hp2, hr]
        have hnext : (join s p roomId).2.nextRef = s.nextRef := by
          simp [join, hp2, hr]
        have hobjs : (join s p roomId).2.objs =
            fun r => if r = ref then
                       { s.objs ref with guests := (s.objs ref).guests ++ [p] }
                     else s.objs r := by
          simp [join, hp2, hr]
        refine ⟨?_, ?_, ?_⟩
        · intro e he q hq
          rw [hrooms] at he
          rw [hpeers]
          rw [hobjs] at hq
          by_cases heref : e.2 = ref
          · rw [heref] at hq ⊢
            have hsplit : q ∈ (s.objs ref).peers ∨ q = p := by
              simp [RoomData.peers] at hq
              simp [RoomData.peers]
              tauto
            rcases hsplit with holdq | hqp
            · have hbase := h1 e he q (by rw [heref]; exact holdq)
              rw [heref] at hbase
              have hqid : q.id ≠ p.id := by
                intro hqp2
                rw [hqp2, hpeer] at hbase
                exact Option.noConfusion hbase
              rw [mapGet_mapSet_other _ _ _ _ hqid]
              exact hbase
            · rw [hqp]
              exact mapGet_mapSet_self _ _ _
          · simp only [heref, if_false] at hq
            have hbase := h1 e he q hq
            have hqid : q.id ≠ p.id := by
              intro hqp
              rw [hqp, hpeer] at hbase
              exact Option.noConfusion hbase
            rw [mapGet_mapSet_other _ _ _ _ hqid]
            exact hbase
        · intro e1 he1 e2 he2 hne
          rw [hrooms] at he1 he2
          exact h2 e1 he1 e2 he2 hne
        · intro e he
          rw [hrooms] at he
          rw [hnext]
          exact h3 e he
  | close id =>
    cases hr : mapGet s.rooms id with
    | none =>
      have heq : closeRoom s id = s := by simp [closeRoom, hr]
      rw [heq]
      exact ⟨h1, h2, h3⟩
    | some ref =>
      have hrooms : (closeRoom s id).rooms = mapDelete s.rooms id := by
        simp [closeRoom, hr]
      have hpeers : (closeRoom s id).peers =
          (removeMembers (s.objs ref).peers s.peers s.closed).1 := by
        simp [closeRoom, hr]
      have hnext : (closeRoom s id).nextRef = s.nextRef := by
        simp [closeRoom, hr]
      have hobjs : (closeRoom s id).objs = s.objs := by
        simp [closeRoom, hr]
      refine ⟨?_, ?_, ?_⟩
      · intro e he q hq
        rw [hrooms] at he
        rw [hpeers]
        rw [hobjs] at hq
        obtain ⟨heM, heK⟩ := mem_mapDelete he
        have hbase := h1 e heM q hq
        have hidref : (id, ref) ∈ s.rooms := mapGet_some_mem hr
        rw [removeMembers_get_notin _ _ _ _ ?_]
        · exact hbase
        · intro q0 hq0 hq0id
          have hq1 := h1 (id, ref) hidref q0 hq0
          rw [hq0id] at hq1
          have heq2 : e.2 = ref := Option.some.inj (hbase.symm.trans hq1)
          exact h2 e heM (id, ref) hidref heK heq2
      · intro e1 he1 e2 he2 hne
        rw [hrooms] at he1 he2
        exact h2 e1 (mem_mapDelete he1).1 e2 (mem_mapDelete he2).1 hne
      · intro e he
        rw [hrooms] at he
        rw [hnext]
        exact h3 e (mem_mapDelete he).1

theorem reachableFresh_goodState {s : ManagerState} (h : ReachableFresh s) :
    GoodState s := by
  induction h with
  | refl => exact goodState_initial
  | tail hab hbc ih => exact stepFresh_goodState ih hbc

def c1S1 : ManagerState := (prepareRoom initialState annUser).2

def c1S2 : ManagerState := (prepareRoom c1S1 benUser).2

def c1S3 : ManagerState := (join c1S2 hostPeerP1 (secureIdString 0)).2

def c1BadState : ManagerState := (join c1S3 hostPeerP1 (secureIdString 1)).2

/-- Claim C1 counterexample: the claim as stated is false.  A sequence
of two prepareRoom calls and two host joins, each join presenting a
fresh generator-issued room id, reaches a state in which the first room
is still registered but its host peer is mapped to the second room in
the peer registry, so the registries are not mutually consistent. -/
theorem c1_counterexample :
    Reachable c1BadState ∧ ¬ RegistryConsistent c1BadState := by
  have t1 : Step initialState c1S1 := Step.prepare initialState annUser
  have t2 : Step c1S1 c1S2 := Step.prepare c1S1 benUser
  have t3 : Step c1S2 c1S3 :=
    Step.joinCall c1S2 hostPeerP1 (secureIdString 0) (fun _ => by decide)
  have t4 : Step c1S3 c1BadState :=
    Step.joinCall c1S3 hostPeerP1 (secureIdString 1) (fun _ => by decide)
  refine ⟨?_, by decide⟩
  exact Relation.ReflTransGen.tail
    (Relation.ReflTransGen.tail
      (Relation.ReflTransGen.tail
        (Relation.ReflTransGen.tail Relation.ReflTransGen.refl t1) t2) t3) t4

/-- Claim C1 amended: in every state reachable by prepareRoom, join and
closeRoom calls where each host join uses a fresh generator-issued room
id and each join call uses a freshly constructed peer whose id is not
currently registered in the peer registry, every Peer that is the host
of, or appears in the guests of, a registered Room is mapped to that
same Room in the peer registry. -/
theorem c1_amended_registry_consistency (s : ManagerState)
    (h : ReachableFresh s) : RegistryConsistent s :=
  (reachableFresh_goodState h).1

/-- Witness for the amended C1 on the state reached by one host join. -/
theorem c1_amended_registry_consistency_witness :
    RegistryConsistent (join initialState hostPeerP1 "R1").2 :=
  c1_amended_registry_consistency (join initialState hostPeerP1 "R1").2
    (Relation.ReflTransGen.tail Relation.ReflTransGen.refl
      (StepFresh.joinCall initialState hostPeerP1 "R1" (fun _ => rfl) rfl))

/-! ### Connection gateway headers (C8) and claim shape (C9) -/

def sampleUserVal : JVal :=
  JVal.obj [("id", JVal.str "u1"), ("name", JVal.str "Ann")]

def sampleClaimVal : JVal :=
  JVal.obj [("room", JVal.str "R1"), ("user", sampleUserVal), ("host", JVal.bool true)]

def vfOk : String → Except String JVal := fun _ => Except.ok sampleClaimVal

/-- Claim C8 counterexample: the claim as stated is false.  With the
bearer token header present and a verifier that accepts a well-formed
room claim, the x-oct gateway still rejects the connection when only
the encryption public key header is absent, so that header is not
optional. -/
theorem c8_counterexample :
    isRoomClaim sampleClaimVal = true ∧
    mapGet [("x-oct-jwt", "tok")] "x-oct-jwt" = some "tok" ∧
    connectChannelV1 [("x-oct-jwt", "tok")] vfOk =
      Except.error "No encryption key set" :=
  ⟨rfl, rfl, rfl⟩

/-- Claim C8 amended: connection setup fails with the missing-token
error exactly when the bearer token header is absent or empty; in the
x-oct gateway the encryption public key header is additionally
required, while the compression list and the client identifier are
optional with defaults none-compression and unknown-client; in the
x-jwt gateway only the token is required and the encoding selector
defaults to json. -/
theorem c8_amended_header_requirements :
    (∀ (headers : List (String × String)) (vf : String → Except String JVal),
      strFalsy (mapGet headers "x-oct-jwt") = true →
      connectChannelV1 headers vf = Except.error "No JWT auth token set") ∧
    (∀ (headers : List (String × String)) (vf : String → Except String JVal)
      (j k : String) (claim : JVal),
      mapGet headers "x-oct-jwt" = some j → j ≠ "" →
      mapGet headers "x-oct-public-key" = some k → k ≠ "" →
      mapGet headers "x-oct-compression" = none →
      mapGet headers "x-oct-client" = none →
      vf j = Except.ok claim →
      connectChannelV1 headers vf =
        Except.ok { user := getField claim "user", host := peerHost claim,
                    client := "unknown", publicKey := k,
                    supportedCompression := ["none"] }) ∧
    (∀ (headers : List (String × String)) (vf : String → Except String JVal),
      strFalsy (mapGet headers "x-jwt") = true →
      connectChannelV2 headers vf = Except.error "No JWT auth token set") ∧
    (∀ (headers : List (String × String)) (vf : String → Except String JVal)
      (j : String) (claim : JVal),
      mapGet headers "x-jwt" = some j → j ≠ "" →
      mapGet headers "x-encoding" = none →
      vf j = Except.ok claim →
      connectChannelV2 headers vf =
        Except.ok { user := getField claim "user", host := peerHost claim,
                    encoding := MessageEncoding.json }) := by
  refine ⟨?_, ?_, ?_, ?_⟩
  · intro headers vf h
    simp [connectChannelV1, h]
  · intro headers vf j k claim hj hjne hk hkne hcomp hclient hvf
    simp [connectChannelV1, hj, hk, hcomp, hclient, hvf, strFalsy, hjne, hkne]
  · intro headers vf h
    simp [connectChannelV2, h]
  · intro headers vf j claim hj hjne henc hvf
    simp [connectChannelV2, hj, henc, hvf, strFalsy, hjne, getEncoding]

/-- Witness for the amended C8 at concrete header lists. -/
theorem c8_amended_header_requirements_witness :
    connectChannelV1 [] vfOk = Except.error "No JWT auth token set" ∧
    connectChannelV1 [("x-oct-jwt", "tok"), ("x-oct-public-key", "pk")] vfOk =
      Except.ok { user := getField sampleClaimVal "user",
                  host := peerHost sampleClaimVal,
                  client := "unknown", publicKey := "pk",
                  supportedCompression := ["none"] } ∧
    connectChannelV2 [] vfOk = Except.error "No JWT auth token set" ∧
    connectChannelV2 [("x-jwt", "tok")] vfOk =
      Except.ok { user := getField sampleClaimVal "user",
                  host := peerHost sampleClaimVal,
                  encoding := MessageEncoding.json } := by
  have h := c8_amended_header_requirements
  refine ⟨h.1 [] vfOk rfl, ?_, h.2.2.1 [] vfOk rfl, ?_⟩
  · exact h.2.1 [("x-oct-jwt", "tok"), ("x-oct-public-key", "pk")] vfOk
      "tok" "pk" sampleClaimVal rfl (by decide) rfl (by decide) rfl rfl rfl
  · exact h.2.2.2 [("x-jwt", "tok")] vfOk "tok" sampleClaimVal rfl (by decide) rfl rfl

/-- Claim C9: isRoomClaim checks only that the payload's room is a
string and its user is a valid user; the host field is never inspected,
so a payload whose host is any truthy non-boolean value passes the
predicate, and the peer built from it receives the host role because
the nullish-coalesced host field evaluates truthy. -/
theorem c9_host_field_not_validated (r : String) (u h : JVal)
    (hu : isUser u = true) (ht : truthy h = true)
    (hb : ∀ b : Bool, h ≠ JVal.bool b) :
    isRoomClaim (JVal.obj [("room", JVal.str r), ("user", u), ("host", h)]) = true ∧
    peerHost (JVal.obj [("room", JVal.str r), ("user", u), ("host", h)]) = true := by
  constructor
  · show (isObject (JVal.obj [("room", JVal.str r), ("user", u), ("host", h)])
      && isString (JVal.str r) && isUser u) = true
    simp [isObject, isString, hu]
  · have hc : coalesce h (JVal.bool false) = h := by
      cases h with
      | null => simp [truthy] at ht
      | undef => simp [truthy] at ht
      | bool b => rfl
      | num n => rfl
      | str s0 => rfl
      | obj fs => rfl
      | arr es => rfl
    show truthy (coalesce h (JVal.bool false)) = true
    rw [hc]
    exact ht

/-- Witness for C9 with the truthy non-boolean host value yes. -/
theorem c9_host_field_not_validated_witness :
    isRoomClaim (JVal.obj [("room", JVal.str "R1"), ("user", sampleUserVal),
      ("host", JVal.str "yes")]) = true ∧
    peerHost (JVal.obj [("room", JVal.str "R1"), ("user", sampleUserVal),
      ("host", JVal.str "yes")]) = true :=
  c9_host_field_not_validated "R1" sampleUserVal (JVal.str "yes")
    (by decide) (by decide) (fun b hb0 => JVal.noConfusion hb0)
